import Mathlib

/-!
Verification of the gophermart loyalty-points service.

The definitions below are a shallow embedding of the Go source:
- internal/app/handlers/ordernumberverifier.go (Luhn order-number validation),
- internal/app/storage/postgre.go (the reconciliation pipeline: getOrderInfo,
  updateOrderStatus, prepareAndUpdateOrderStatus, getNotCalculatedOrderNumbers,
  mergeChannels, UseBonuses),
- cmd/gophermart/main.go (periodicUpdateExecutor, the cycle scheduler).

Database rows hold NUMERIC(20,2) amounts and the Go code handles them as
float64; amounts are embedded as rationals.  Statuses are VARCHAR columns and
are embedded as strings, exactly as the code writes them.
-/

namespace Gophermart

/-! ## Order-number validation (ordernumberverifier.go) -/

/-- Embedding of strconv.Atoi applied to a single character: it succeeds
exactly on the ASCII digits. -/
def atoiDigit (c : Char) : Option Nat :=
  if c.isDigit then some (c.toNat - '0'.toNat) else none

/-- Embedding of reverseString from ordernumberverifier.go: reverse the rune
sequence. -/
def reverseString (s : List Char) : List Char :=
  s.reverse

/-- The loop body of isOrderNumberValid: iterate over the reversed cleaned
number with a running index and sum, doubling every second digit (index odd)
and subtracting 9 from doubled values above 9; a non-digit character aborts
with the error the Go code returns.  The Go loop indexes by byte offset, but
a non-ASCII rune makes strconv.Atoi fail at once, so for every input the byte
index and the rune index agree on all characters actually summed. -/
def luhnLoop : List Char → Nat → Nat → Except String Nat
  | [], _, sum => Except.ok sum
  | c :: cs, i, sum =>
    match atoiDigit c with
    | none => Except.error "isOrderNumberValid: order number contains invalid characters"
    | some n =>
      let n2 := if i % 2 = 1 then (if n * 2 > 9 then n * 2 - 9 else n * 2) else n
      luhnLoop cs (i + 1) (sum + n2)

/-- strings.ReplaceAll(orderNumber, " ", "") on the rune sequence: drop
every space character. -/
def cleanSpaces (s : List Char) : List Char :=
  s.filter (fun c => c ≠ ' ')

/-- Embedding of isOrderNumberValid from ordernumberverifier.go: remove all
spaces, reject the empty remainder, run the Luhn loop over the reversed
remainder, and accept when the sum is divisible by 10.  The Go function
returns (bool, error); an error case is Except.error, the non-error case
Except.ok with the returned boolean. -/
def isOrderNumberValid (orderNumber : List Char) : Except String Bool :=
  let cleanOrderNumber := cleanSpaces orderNumber
  if cleanOrderNumber = [] then
    Except.error "isOrderNumberValid: order number is empty"
  else
    match luhnLoop (reverseString cleanOrderNumber) 0 0 with
    | Except.error e => Except.error e
    | Except.ok sum => Except.ok (sum % 10 == 0)

/-- The numeric value of a digit character. -/
def digitVal (c : Char) : Nat :=
  c.toNat - '0'.toNat

/-- Luhn transform of the digit at distance i from the rightmost digit:
every second digit counted from the rightmost (odd i) is doubled, and 9 is
subtracted from a doubled value above 9. -/
def luhnDouble (i d : Nat) : Nat :=
  if i % 2 = 1 then (if d * 2 > 9 then d * 2 - 9 else d * 2) else d

/-- Sum of Luhn-transformed digits, the head standing at distance i from the
rightmost digit. -/
def luhnSumFrom : List Nat → Nat → Nat
  | [], _ => 0
  | d :: ds, i => luhnDouble i d + luhnSumFrom ds (i + 1)

/-- The Luhn checksum of a digit string given most-significant first:
double every second digit counted from the rightmost digit, subtract 9 from
doubled values above 9, and sum. -/
def luhnChecksum (digits : List Nat) : Nat :=
  luhnSumFrom digits.reverse 0

/-! ## Data model (postgre.go, models.go)

A database state holds the three tables the pipeline and the withdrawal
operation touch.  orders is keyed by order_id, balances by user_id;
withdrawals is a bag of rows.  Statuses and identifiers are the VARCHAR
values the code stores; amounts are the NUMERIC values, embedded as ℚ. -/

/-- One row of the orders table. -/
structure OrderRow where
  userId : String
  status : String
  accrual : Option ℚ
deriving DecidableEq

/-- The database state visible to the embedded operations. -/
structure DBState where
  orders : String → Option OrderRow
  balances : String → Option ℚ
  withdrawals : List (String × String × ℚ)

/-- Embedding of models.APIOrderInfoResponse: the decoded verdict body.
Accrual is float64 with omitempty, so a body without the field decodes to
accrual = 0 rather than to an absent value. -/
structure APIOrderInfoResponse where
  order : String
  status : String
  accrual : ℚ
deriving DecidableEq

/-- Embedding of models.APIUseBonusesRequest. -/
structure APIUseBonusesRequest where
  orderNumber : String
  sum : ℚ
deriving DecidableEq

/-- Fault injection for a database transaction: which of the statements of
the transaction fail.  The Go code checks each statement's error and returns
early; a returned error reaches the deferred tx.Rollback, a successful
tx.Commit publishes the transaction's writes. -/
structure TxFail where
  beginFails : Bool
  exec1Fails : Bool
  exec2Fails : Bool
  commitFails : Bool
deriving DecidableEq

/-- The run with no injected database failures. -/
def noFail : TxFail := ⟨false, false, false, false⟩

/-- Sentinel error value ErrNotEnoughBonuses from postgre.go. -/
def ErrNotEnoughBonuses : String := "not enough bonuses to use for order"

/-! ## Accrual client (getOrderInfo) -/

/-- The observable outcome of the HTTP GET against the accrual system:
status code plus, for 200, the decoded body (none when the body cannot be
decoded).  networkFailure covers client.Do errors, timeouts included. -/
inductive HttpOutcome where
  | okBody (body : Option APIOrderInfoResponse)
  | noContent
  | tooManyRequests (retryAfter : String)
  | internalServerError
  | otherStatus (code : Nat) (body : String)
  | networkFailure
deriving DecidableEq

/-- Embedding of getOrderInfo from postgre.go: translate the HTTP outcome
for one order number into a verdict or an error, mirroring the switch on
resp.StatusCode. -/
def getOrderInfo (resp : HttpOutcome) (orderNumber : String) : Except String APIOrderInfoResponse :=
  match resp with
  | HttpOutcome.networkFailure => Except.error "getOrderInfo: error get"
  | HttpOutcome.okBody none => Except.error "getOrderInfo: error decoding JSON resp"
  | HttpOutcome.okBody (some orderInfo) => Except.ok orderInfo
  | HttpOutcome.noContent =>
      Except.error ("getOrderInfo: order " ++ orderNumber ++ " not registered in the system")
  | HttpOutcome.tooManyRequests retryAfter =>
      Except.error ("getOrderInfo: rate limit exceeded, retry after " ++ retryAfter ++ " seconds")
  | HttpOutcome.internalServerError => Except.error "getOrderInfo: interna; server error"
  | HttpOutcome.otherStatus code _ =>
      Except.error ("getOrderInfo: unexpected status code: " ++ toString code)

/-- A transient lookup outcome: everything except HTTP 200 with a decodable
body. -/
def transientOutcome (resp : HttpOutcome) : Bool :=
  match resp with
  | HttpOutcome.okBody (some _) => false
  | _ => true

/-! ## Applier (updateOrderStatus) -/

/-- The first statement of the updateOrderStatus transaction:
UPDATE orders SET status = verdict.status, accrual = verdict.accrual
WHERE order_id = orderNumber.  A missing row matches nothing.  There is no
re-read of the current status and no terminal-state guard. -/
def execUpdateOrder (db : DBState) (orderInfo : APIOrderInfoResponse) (orderNumber : String) : DBState :=
  { db with orders := fun k =>
      if k = orderNumber then
        (db.orders k).map (fun r => { r with status := orderInfo.status, accrual := some orderInfo.accrual })
      else db.orders k }

/-- The second statement of the updateOrderStatus transaction:
UPDATE balances SET current = current + accrual
WHERE user_id = (SELECT user_id FROM orders WHERE order_id = orderNumber).
The subquery runs against the transaction-local orders table; a missing
order makes the subquery empty and the update a no-op. -/
def execUpdateBalance (db : DBState) (amount : ℚ) (orderNumber : String) : DBState :=
  match db.orders orderNumber with
  | none => db
  | some r =>
      { db with balances := fun u =>
          if u = r.userId then (db.balances u).map (fun b => b + amount) else db.balances u }

/-- The full write set of one committed updateOrderStatus transaction: the
status/accrual write, then the balance credit exactly when accrual > 0. -/
def applyVerdictTx (db : DBState) (orderInfo : APIOrderInfoResponse) (orderNumber : String) : DBState :=
  let tx1 := execUpdateOrder db orderInfo orderNumber
  if orderInfo.accrual > 0 then execUpdateBalance tx1 orderInfo.accrual orderNumber else tx1

/-- Embedding of updateOrderStatus from postgre.go.  Returns the published
database state and the returned error, if any.  Statement writes accumulate
in the transaction-local state and reach the returned state only through
tx.Commit; every error path returns before Commit, so the deferred
tx.Rollback discards the transaction-local writes and the published state is
the input state. -/
def updateOrderStatus (fail : TxFail) (resp : HttpOutcome) (db : DBState) (orderNumber : String) :
    DBState × Option String :=
  match getOrderInfo resp orderNumber with
  | Except.error e => (db, some ("updateOrderStatus: error getting order info: " ++ e))
  | Except.ok orderInfo =>
    if fail.beginFails then (db, some "updateOrderStatus: error beginning transaction") else
    if fail.exec1Fails then (db, some ("updateOrderStatus: error updating status for order " ++ orderNumber)) else
    let tx1 := execUpdateOrder db orderInfo orderNumber
    if orderInfo.accrual > 0 then
      if fail.exec2Fails then (db, some ("updateOrderStatus: error updating balance for order " ++ orderNumber)) else
      let tx2 := execUpdateBalance tx1 orderInfo.accrual orderNumber
      if fail.commitFails then (db, some "updateOrderStatus: error committing transaction") else
      (tx2, none)
    else
      if fail.commitFails then (db, some "updateOrderStatus: error committing transaction") else
      (tx1, none)

/-! ## Withdrawal (UseBonuses) -/

/-- Embedding of UseBonuses from postgre.go: inside one transaction, read
the user's current balance, reject with ErrNotEnoughBonuses when
current - sum < 0, otherwise write the decremented balance, insert one
withdrawal row, and commit.  Error paths return before Commit and publish
nothing. -/
def UseBonuses (fail : TxFail) (db : DBState) (request : APIUseBonusesRequest) (userID : String) :
    DBState × Option String :=
  if fail.beginFails then (db, some "useBonuses: transaction error") else
  match db.balances userID with
  | none => (db, some "useBonuses: error getting current bonuses amount")
  | some current =>
    let dif := current - request.sum
    if dif < 0 then (db, some ("useBonuses: " ++ ErrNotEnoughBonuses)) else
    if fail.exec1Fails then (db, some "useBonuses: error updating current bonuses amount") else
    let tx1 : DBState :=
      { db with balances := fun u => if u = userID then (db.balances u).map (fun _ => dif) else db.balances u }
    if fail.exec2Fails then (db, some "useBonuses: error inserting data to withdrawals") else
    let tx2 : DBState := { tx1 with withdrawals := tx1.withdrawals ++ [(userID, request.orderNumber, request.sum)] }
    if fail.commitFails then (db, some "useBonuses: error committing transaction") else
    (tx2, none)

/-! ## Scanner (getNotCalculatedOrderNumbers) -/

/-- The scanner's membership predicate, from the SQL in
getNotCalculatedOrderNumbers:
SELECT order_id FROM orders WHERE status NOT IN ('INVALID', 'PROCESSED').
An order is in a cycle's scan set exactly when its row exists and its status
is neither INVALID nor PROCESSED. -/
def notCalculated (db : DBState) (orderNumber : String) : Bool :=
  match db.orders orderNumber with
  | none => false
  | some r => !(r.status == "INVALID" || r.status == "PROCESSED")

/-- An order whose row exists and is in a terminal state. -/
def terminalOrder (db : DBState) (orderNumber : String) : Bool :=
  match db.orders orderNumber with
  | none => false
  | some r => r.status == "PROCESSED" || r.status == "INVALID"

/-- The rank of a status under the order NEW < PROCESSING < terminal used by
the monotonicity property. -/
def statusRank (s : String) : Nat :=
  if s = "NEW" then 0
  else if s = "PROCESSING" then 1
  else if s = "PROCESSED" ∨ s = "INVALID" then 2
  else 0

/-! ## Worker (prepareAndUpdateOrderStatus) -/

/-- Embedding of the goroutine body of prepareAndUpdateOrderStatus from
postgre.go.  The body is one select: either the context is done or the input
channel yields at most one order number (received = none models both the
done branch and a closed channel); there is no enclosing loop.  For a
received order it runs updateOrderStatus and pushes the error onto the error
channel or a success message onto the output channel, then both channels
close.  The result is the published database state, the output-channel
contents and the error-channel contents. -/
def prepareAndUpdateOrderStatus (fail : TxFail) (resp : HttpOutcome) (db : DBState)
    (received : Option String) : DBState × List String × List String :=
  match received with
  | none => (db, [], [])
  | some orderNumber =>
    match updateOrderStatus fail resp db orderNumber with
    | (db2, some e) => (db2, [], [e])
    | (db2, none) =>
        (db2, ["prepareAndUpdateOrderStatus: order " ++ orderNumber ++ " updated"], [])

/-- One receive from the shared order-number channel: the worker goroutine
takes the next pending number, if any. -/
def workerReceive : List String → Option String × List String
  | [] => (none, [])
  | o :: rest => (some o, rest)

/-- The order numbers consumed in one cycle by a pool of n workers, each of
which performs the single receive of prepareAndUpdateOrderStatus and then
returns (no loop): every worker takes at most one number from the shared
channel. -/
def runWorkerPool : Nat → List String → List String
  | 0, _ => []
  | n + 1, pending =>
    match workerReceive pending with
    | (none, _) => []
    | (some o, rest) => o :: runWorkerPool n rest

/-! ## Serial pipeline executions

periodicUpdateExecutor runs HandleOrderNumbers to completion before waiting
for the next tick (see periodicCycleStart below), so cycles never overlap.
Within a cycle the scanner emits each pending order_id at most once
(order_id is the primary key), and no other order's processing writes this
order's row, so a verdict is applied only while the order still satisfies
the scan predicate under which it was emitted.  A pipeline event is one
worker processing one delivered lookup outcome for one order; the guard is
the scanner's membership predicate. -/

/-- One scheduling of an order lookup: the order number, the HTTP outcome
the accrual system produced, and the injected transaction faults. -/
structure PipelineEvent where
  orderNum : String
  resp : HttpOutcome
  fail : TxFail

/-- The database state after one pipeline event: scanned orders go through
updateOrderStatus, orders outside the scan set are not emitted and nothing
runs for them. -/
def pipelineStep (db : DBState) (e : PipelineEvent) : DBState :=
  if notCalculated db e.orderNum then (updateOrderStatus e.fail e.resp db e.orderNum).1 else db

/-- Run a serial sequence of pipeline events. -/
def pipelineRun (db : DBState) : List PipelineEvent → DBState
  | [] => db
  | e :: es => pipelineRun (pipelineStep db e) es

/-- How many events of the sequence credit user u on behalf of order o: an
event for o after which u's balance row differs. -/
def creditCount (o u : String) (db : DBState) : List PipelineEvent → Nat
  | [] => 0
  | e :: es =>
    let db2 := pipelineStep db e
    (if e.orderNum = o ∧ db2.balances u ≠ db.balances u then 1 else 0) + creditCount o u db2 es

/-- A well-formed event stream per the accrual interface (spec section 6):
a decoded verdict carries a positive accrual only when its status is
PROCESSED. -/
def wfEvents (events : List PipelineEvent) : Prop :=
  ∀ e ∈ events, ∀ info, getOrderInfo e.resp e.orderNum = Except.ok info →
    info.accrual > 0 → info.status = "PROCESSED"

/-! ## Scheduler (periodicUpdateExecutor, main.go)

periodicUpdateExecutor is a loop that calls the task synchronously, then
selects on ctx.Done and time.After(interval).  With the 500 ms interval of
main.go, cycle n+1 starts 500 ms after cycle n completes.  dur n is the
running time of cycle n. -/

/-- Start time of cycle n under periodicUpdateExecutor with the 500 ms
interval: the previous cycle's completion plus the 500 ms wait. -/
def periodicCycleStart (dur : Nat → Nat) : Nat → Nat
  | 0 => 0
  | n + 1 => periodicCycleStart dur n + dur n + 500

/-- Completion time of cycle n. -/
def periodicCycleEnd (dur : Nat → Nat) (n : Nat) : Nat :=
  periodicCycleStart dur n + dur n

/-! ## Fan-in (mergeChannels)

Small-step model of mergeChannels.  Each source channel is the list of items
its producer will still deliver before closing; a forwarder goroutine is the
pair (remaining items, done flag).  The out channel is the list of forwarded
items plus a closed flag; the context is a cancellation flag that can only be
switched on.  Once the context is cancelled the cycle's consumer has
returned, so the send case of the forwarder's select is never ready and the
goroutine can only take the ctx.Done branch and return, leaving its
remaining items undelivered.  The closer goroutine (wg.Wait; close(out))
closes out once every forwarder is done. -/

/-- State of the mergeChannels system. -/
structure MergeState (T : Type) where
  srcs : List (List T × Bool)
  out : List T
  outClosed : Bool
  cancelled : Bool

/-- Initial state of mergeChannels on sources ls: one forwarder per source,
nothing forwarded, out open, context live. -/
def mergeInit {T : Type} (ls : List (List T)) : MergeState T :=
  ⟨ls.map (fun l => (l, false)), [], false, false⟩

/-- The interleaved steps of the mergeChannels goroutines. -/
inductive MergeStep {T : Type} : MergeState T → MergeState T → Prop
  | forward (s : MergeState T) (i : Nat) (x : T) (rest : List T)
      (hc : s.cancelled = false) (hi : s.srcs.get? i = some (x :: rest, false)) :
      MergeStep s { s with srcs := s.srcs.set i (rest, false), out := s.out ++ [x] }
  | finish (s : MergeState T) (i : Nat) (hi : s.srcs.get? i = some ([], false)) :
      MergeStep s { s with srcs := s.srcs.set i ([], true) }
  | cancelQuit (s : MergeState T) (i : Nat) (l : List T)
      (hc : s.cancelled = true) (hi : s.srcs.get? i = some (l, false)) :
      MergeStep s { s with srcs := s.srcs.set i (l, true) }
  | cancel (s : MergeState T) (hc : s.cancelled = false) :
      MergeStep s { s with cancelled := true }
  | closeOut (s : MergeState T) (hall : ∀ p ∈ s.srcs, p.2 = true) (ho : s.outClosed = false) :
      MergeStep s { s with outClosed := true }

/-- Reachability from the initial mergeChannels state. -/
def MergeReachable {T : Type} (ls : List (List T)) (s : MergeState T) : Prop :=
  Relation.ReflTransGen MergeStep (mergeInit ls) s

/-- Termination measure of the mergeChannels system: items still held plus
live goroutine flags plus the two one-shot flags. -/
def mergeMeasure {T : Type} (s : MergeState T) : Nat :=
  (s.srcs.map (fun p => p.1.length + (if p.2 then 0 else 1))).sum
    + (if s.outClosed then 0 else 1) + (if s.cancelled then 0 else 1)

/-! ## Lemmas about the Luhn validator -/

/-- On an all-digit list the Luhn loop returns the accumulated sum plus the
transformed digit sum starting at index i. -/
lemma luhnLoop_all_digits (l : List Char) :
    ∀ i sum, (∀ c ∈ l, c.isDigit = true) →
      luhnLoop l i sum = Except.ok (sum + luhnSumFrom (l.map digitVal) i) := by
  induction l with
  | nil => intro i sum _; simp [luhnLoop, luhnSumFrom]
  | cons c cs ih =>
    intro i sum h
    have hc : c.isDigit = true := h c (List.mem_cons_self c cs)
    have hcs : ∀ x ∈ cs, x.isDigit = true := fun x hx => h x (List.mem_cons_of_mem c hx)
    simp only [luhnLoop, atoiDigit, hc, if_true, List.map_cons, luhnSumFrom]
    rw [ih (i + 1) _ hcs]
    congr 1
    simp only [luhnDouble, digitVal]
    split <;> omega

/-- A non-digit character anywhere in the list makes the Luhn loop abort
with an error. -/
lemma luhnLoop_bad_digit (l : List Char) :
    ∀ i sum, (∃ c ∈ l, c.isDigit = false) →
      luhnLoop l i sum = Except.error "isOrderNumberValid: order number contains invalid characters" := by
  induction l with
  | nil => intro i sum h; rcases h with ⟨c, hc, _⟩; cases hc
  | cons c cs ih =>
    intro i sum h
    by_cases hc : c.isDigit = true
    · simp only [luhnLoop, atoiDigit, hc, if_true]
      apply ih
      rcases h with ⟨d, hd, hdd⟩
      rcases List.mem_cons.mp hd with rfl | hmem
      · rw [hc] at hdd; cases hdd
      · exact ⟨d, hmem, hdd⟩
    · have hcf : c.isDigit = false := by revert hc; cases c.isDigit <;> simp
      simp only [luhnLoop, atoiDigit, hcf, Bool.false_eq_true, if_false]

/-- C9: the order-number validator removes all spaces, rejects an empty
remainder and any non-digit character with an error, and otherwise accepts
exactly when the Luhn checksum of the remaining digits (doubling every
second digit counted from the rightmost, subtracting 9 from doubled values
above 9) is divisible by 10. -/
theorem isOrderNumberValid_spec (s : List Char) :
    (cleanSpaces s = [] →
        isOrderNumberValid s = Except.error "isOrderNumberValid: order number is empty")
  ∧ ((∃ c ∈ cleanSpaces s, c.isDigit = false) →
        ∃ e, isOrderNumberValid s = Except.error e)
  ∧ (cleanSpaces s ≠ [] →
      (∀ c ∈ cleanSpaces s, c.isDigit = true) →
        isOrderNumberValid s
          = Except.ok (luhnChecksum ((cleanSpaces s).map digitVal) % 10 == 0)) := by
  refine ⟨fun h => ?_, fun h => ?_, fun h1 h2 => ?_⟩
  · rw [isOrderNumberValid]
    simp only [h, if_true]
  · by_cases h0 : cleanSpaces s = []
    · rcases h with ⟨c, hc, _⟩; rw [h0] at hc; cases hc
    · refine ⟨"isOrderNumberValid: order number contains invalid characters", ?_⟩
      have hrev : ∃ c ∈ reverseString (cleanSpaces s), c.isDigit = false := by
        rcases h with ⟨c, hc, hcd⟩
        exact ⟨c, by simpa [reverseString] using hc, hcd⟩
      rw [isOrderNumberValid]
      simp only [h0, if_false, luhnLoop_bad_digit _ 0 0 hrev]
  · have hrev : ∀ c ∈ reverseString (cleanSpaces s), c.isDigit = true := by
      intro c hc
      exact h2 c (by simpa [reverseString] using hc)
    rw [isOrderNumberValid]
    simp only [h1, if_false, reverseString]
    rw [luhnLoop_all_digits _ 0 0 (by simpa [reverseString] using hrev)]
    simp [luhnChecksum, List.map_reverse]

/-- Witness for C9 at concrete inputs: a space-padded Luhn-valid number and
the single digit 0 are accepted, a string of only spaces is rejected. -/
theorem isOrderNumberValid_spec_witness :
    isOrderNumberValid (" 7992 7398 713".toList) = Except.ok true
  ∧ isOrderNumberValid ("0".toList) = Except.ok true
  ∧ (∃ e, isOrderNumberValid ("   ".toList) = Except.error e) := by
  refine ⟨?_, ?_, ?_⟩
  · exact ((isOrderNumberValid_spec (" 7992 7398 713".toList)).2.2 (by decide) (by decide)).trans
      (congrArg Except.ok (by decide))
  · exact ((isOrderNumberValid_spec ("0".toList)).2.2 (by decide) (by decide)).trans
      (congrArg Except.ok (by decide))
  · exact ⟨"isOrderNumberValid: order number is empty",
      (isOrderNumberValid_spec ("   ".toList)).1 (by decide)⟩

/-! ## Withdrawal: C10 -/

/-- C10: UseBonuses rejects a withdrawal larger than the current balance
with ErrNotEnoughBonuses and no change; every error path leaves the state
unchanged; a successful run decrements the balance by the sum, appends
exactly one withdrawal row, keeps the new balance non-negative and touches
no order row, all in the one transaction. -/
theorem UseBonuses_spec (fail : TxFail) (db : DBState) (request : APIUseBonusesRequest)
    (userID : String) (current : ℚ) (hbal : db.balances userID = some current) :
    (current < request.sum → fail.beginFails = false →
        UseBonuses fail db request userID = (db, some ("useBonuses: " ++ ErrNotEnoughBonuses)))
  ∧ ((UseBonuses fail db request userID).2 ≠ none → (UseBonuses fail db request userID).1 = db)
  ∧ ((UseBonuses fail db request userID).2 = none →
        request.sum ≤ current
      ∧ (UseBonuses fail db request userID).1.balances userID = some (current - request.sum)
      ∧ 0 ≤ current - request.sum
      ∧ (UseBonuses fail db request userID).1.withdrawals
          = db.withdrawals ++ [(userID, request.orderNumber, request.sum)]
      ∧ (UseBonuses fail db request userID).1.orders = db.orders) := by
  simp only [UseBonuses, hbal]
  split_ifs with hb hd h1 h2 hcm
  · exact ⟨fun _ hbeg => absurd hb (by rw [hbeg]; simp),
      fun _ => rfl, fun h => by cases h⟩
  · exact ⟨fun _ _ => rfl, fun _ => rfl, fun h => by cases h⟩
  · exact ⟨fun hlt _ => absurd (sub_neg.mpr hlt) hd, fun _ => rfl, fun h => by cases h⟩
  · exact ⟨fun hlt _ => absurd (sub_neg.mpr hlt) hd, fun _ => rfl, fun h => by cases h⟩
  · exact ⟨fun hlt _ => absurd (sub_neg.mpr hlt) hd, fun _ => rfl, fun h => by cases h⟩
  · refine ⟨fun hlt _ => absurd (sub_neg.mpr hlt) hd, fun h => absurd rfl h, fun _ => ?_⟩
    refine ⟨by linarith [not_lt.mp hd], ?_, by linarith [not_lt.mp hd], rfl, rfl⟩
    simp [hbal]

/-- Witness for C10: with balance 0, withdrawing 5 returns
ErrNotEnoughBonuses and changes nothing. -/
theorem UseBonuses_spec_witness :
    UseBonuses noFail
        ⟨fun _ => none, fun u => if u = "u1" then some 0 else none, []⟩
        ⟨"2377225624", 5⟩ "u1"
      = (⟨fun _ => none, fun u => if u = "u1" then some 0 else none, []⟩,
         some ("useBonuses: " ++ ErrNotEnoughBonuses)) :=
  (UseBonuses_spec noFail _ _ "u1" 0 (by simp)).1 (by decide) rfl

/-! ## Applier atomicity: C4 -/

/-- Case analysis of updateOrderStatus: every run either returns an error
and publishes the unchanged input state, or commits and publishes exactly
the full write set applyVerdictTx of the decoded verdict. -/
lemma updateOrderStatus_cases (fail : TxFail) (resp : HttpOutcome) (db : DBState)
    (orderNumber : String) :
    ((updateOrderStatus fail resp db orderNumber).2 ≠ none →
        (updateOrderStatus fail resp db orderNumber).1 = db)
  ∧ ((updateOrderStatus fail resp db orderNumber).2 = none →
        ∃ info, getOrderInfo resp orderNumber = Except.ok info ∧
          (updateOrderStatus fail resp db orderNumber).1
            = applyVerdictTx db info orderNumber) := by
  unfold updateOrderStatus
  cases hg : getOrderInfo resp orderNumber with
  | error e => exact ⟨fun _ => rfl, fun h => by cases h⟩
  | ok info =>
    simp only []
    split_ifs with hb h1 hacc h2 hcm hcm2
    · exact ⟨fun _ => rfl, fun h => by cases h⟩
    · exact ⟨fun _ => rfl, fun h => by cases h⟩
    · exact ⟨fun _ => rfl, fun h => by cases h⟩
    · exact ⟨fun _ => rfl, fun h => by cases h⟩
    · exact ⟨fun h => absurd rfl h, fun _ => ⟨info, rfl, by simp [applyVerdictTx, hacc]⟩⟩
    · exact ⟨fun _ => rfl, fun h => by cases h⟩
    · exact ⟨fun h => absurd rfl h, fun _ => ⟨info, rfl, by simp [applyVerdictTx, hacc]⟩⟩

/-- C4: updateOrderStatus is atomic.  Every run either returns an error and
publishes the unchanged input state (any statement or the commit failing
rolls the whole transaction back), or commits and publishes exactly the full
write set applyVerdictTx of the decoded verdict: the status/accrual write
together with the conditional balance credit.  No other state is
reachable, so no published state carries one of the two writes without the
other. -/
theorem updateOrderStatus_atomic (fail : TxFail) (resp : HttpOutcome) (db : DBState)
    (orderNumber : String) :
    ((updateOrderStatus fail resp db orderNumber).2 ≠ none →
        (updateOrderStatus fail resp db orderNumber).1 = db)
  ∧ ((updateOrderStatus fail resp db orderNumber).2 = none →
        ∃ info, getOrderInfo resp orderNumber = Except.ok info ∧
          (updateOrderStatus fail resp db orderNumber).1
            = applyVerdictTx db info orderNumber) :=
  updateOrderStatus_cases fail resp db orderNumber

/-- Witness for C4: with a failing transaction begin, the published state is
the unchanged input state. -/
theorem updateOrderStatus_atomic_witness :
    (updateOrderStatus ⟨true, false, false, false⟩
        (HttpOutcome.okBody (some ⟨"79927398713", "PROCESSED", 500⟩))
        ⟨fun _ => none, fun _ => none, []⟩ "79927398713").1
      = ⟨fun _ => none, fun _ => none, []⟩ :=
  (updateOrderStatus_atomic ⟨true, false, false, false⟩
      (HttpOutcome.okBody (some ⟨"79927398713", "PROCESSED", 500⟩))
      ⟨fun _ => none, fun _ => none, []⟩ "79927398713").1 (fun h => Option.noConfusion h)

/-! ## Transient outcomes: C5 -/

/-- C5: for every transient lookup outcome (204, 429, 500, any other
non-200 status, an undecodable body, or a network failure or timeout) the
pipeline writes nothing for the order: the published state is the input
state, updateOrderStatus reports an error, the worker pushes exactly that
one error onto its error channel and nothing onto its output channel, and
the order's scan eligibility is exactly what it was. -/
theorem updateOrderStatus_transient_no_write (fail : TxFail) (resp : HttpOutcome) (db : DBState)
    (o : String) (ht : transientOutcome resp = true) :
    (updateOrderStatus fail resp db o).1 = db
  ∧ (updateOrderStatus fail resp db o).2.isSome = true
  ∧ (prepareAndUpdateOrderStatus fail resp db (some o)).1 = db
  ∧ (prepareAndUpdateOrderStatus fail resp db (some o)).2.1 = []
  ∧ (prepareAndUpdateOrderStatus fail resp db (some o)).2.2.length = 1
  ∧ notCalculated (prepareAndUpdateOrderStatus fail resp db (some o)).1 o = notCalculated db o := by
  cases resp with
  | okBody body =>
    cases body with
    | some info => simp [transientOutcome] at ht
    | none => exact ⟨rfl, rfl, rfl, rfl, rfl, rfl⟩
  | noContent => exact ⟨rfl, rfl, rfl, rfl, rfl, rfl⟩
  | tooManyRequests ra => exact ⟨rfl, rfl, rfl, rfl, rfl, rfl⟩
  | internalServerError => exact ⟨rfl, rfl, rfl, rfl, rfl, rfl⟩
  | otherStatus code body => exact ⟨rfl, rfl, rfl, rfl, rfl, rfl⟩
  | networkFailure => exact ⟨rfl, rfl, rfl, rfl, rfl, rfl⟩

/-- Witness for C5: an HTTP 204 for a pending NEW order leaves the state
unchanged and produces one error-channel entry. -/
theorem updateOrderStatus_transient_no_write_witness :
    (updateOrderStatus noFail HttpOutcome.noContent
        ⟨fun k => if k = "79927398713" then some ⟨"u1", "NEW", none⟩ else none,
         fun u => if u = "u1" then some 0 else none, []⟩ "79927398713").1
      = ⟨fun k => if k = "79927398713" then some ⟨"u1", "NEW", none⟩ else none,
         fun u => if u = "u1" then some 0 else none, []⟩
  ∧ (prepareAndUpdateOrderStatus noFail HttpOutcome.noContent
        ⟨fun k => if k = "79927398713" then some ⟨"u1", "NEW", none⟩ else none,
         fun u => if u = "u1" then some 0 else none, []⟩ (some "79927398713")).2.2.length = 1 :=
  ⟨(updateOrderStatus_transient_no_write noFail HttpOutcome.noContent _ "79927398713" rfl).1,
   (updateOrderStatus_transient_no_write noFail HttpOutcome.noContent _ "79927398713" rfl).2.2.2.2.1⟩

/-! ## Credit condition: C2 -/

/-- A pending NEW order for user u1 whose balance is 0. -/
def dbC2 : DBState :=
  ⟨fun k => if k = "4561261212345467" then some ⟨"u1", "NEW", none⟩ else none,
   fun u => if u = "u1" then some 0 else none, []⟩

/-- A verdict whose status is PROCESSING but whose accrual field holds 5. -/
def respC2 : HttpOutcome :=
  HttpOutcome.okBody (some ⟨"4561261212345467", "PROCESSING", 5⟩)

/-- Counterexample to C2 as stated: a committed verdict with status
PROCESSING (not PROCESSED) and accrual 5 changes the owner's balance, so
the balance is not only changed when the new status is PROCESSED. -/
theorem updateOrderStatus_credits_non_processed_cex :
    ((dbC2.orders "4561261212345467").map OrderRow.status = some "NEW")
  ∧ ((getOrderInfo respC2 "4561261212345467").toOption.map APIOrderInfoResponse.status
      = some "PROCESSING")
  ∧ (updateOrderStatus noFail respC2 dbC2 "4561261212345467").2 = none
  ∧ dbC2.balances "u1" = some 0
  ∧ (updateOrderStatus noFail respC2 dbC2 "4561261212345467").1.balances "u1" = some (0 + 5)
  ∧ (0 : ℚ) < 0 + 5 := by
  exact ⟨rfl, rfl, rfl, rfl, rfl, by norm_num⟩

/-- C2 amended: the Applier credits the owning user's balance by the
verdict's accrual exactly when accrual > 0, whatever the verdict's status
(PROCESSED or not); whenever accrual is not positive the balances table is
untouched. -/
theorem updateOrderStatus_credit_iff_accrual_pos (fail : TxFail) (resp : HttpOutcome)
    (db : DBState) (o : String) (info : APIOrderInfoResponse)
    (hinfo : getOrderInfo resp o = Except.ok info) :
    (¬ 0 < info.accrual → (updateOrderStatus fail resp db o).1.balances = db.balances)
  ∧ (0 < info.accrual → (updateOrderStatus fail resp db o).2 = none →
      ∀ r, db.orders o = some r →
        (updateOrderStatus fail resp db o).1.balances r.userId
          = (db.balances r.userId).map (fun b => b + info.accrual)) := by
  unfold updateOrderStatus
  rw [hinfo]
  simp only []
  split_ifs with hb h1 hacc h2 hcm hcm2
  · exact ⟨fun _ => rfl, fun _ h => by cases h⟩
  · exact ⟨fun _ => rfl, fun _ h => by cases h⟩
  · exact ⟨fun _ => rfl, fun _ h => by cases h⟩
  · exact ⟨fun _ => rfl, fun _ h => by cases h⟩
  · refine ⟨fun hn => absurd hacc hn, fun _ _ r hr => ?_⟩
    simp [execUpdateBalance, execUpdateOrder, hr]
  · exact ⟨fun _ => rfl, fun _ h => by cases h⟩
  · exact ⟨fun _ => rfl, fun hacc2 _ => absurd hacc2 hacc⟩

/-- Witness for C2 amended: an INVALID verdict with accrual 0 leaves the
balances table untouched. -/
theorem updateOrderStatus_credit_iff_accrual_pos_witness :
    (updateOrderStatus noFail (HttpOutcome.okBody (some ⟨"4561261212345467", "INVALID", 0⟩))
        dbC2 "4561261212345467").1.balances = dbC2.balances :=
  (updateOrderStatus_credit_iff_accrual_pos noFail
      (HttpOutcome.okBody (some ⟨"4561261212345467", "INVALID", 0⟩))
      dbC2 "4561261212345467" ⟨"4561261212345467", "INVALID", 0⟩ rfl).1 (by decide)

/-! ## Scheduler: C7 -/

/-- Counterexample to C7 as stated: with every cycle taking 1000 ms (twice
the 500 ms interval) cycle 1 still starts only at 1500 ms, after cycle 0
completed at 1000 ms — the next pass never starts while the previous one is
running, so no two cycles ever overlap. -/
theorem periodicUpdateExecutor_no_overlap_cex :
    periodicCycleEnd (fun _ => 1000) 0 = 1000
  ∧ periodicCycleStart (fun _ => 1000) 1 = 1500
  ∧ periodicCycleEnd (fun _ => 1000) 0 < periodicCycleStart (fun _ => 1000) 1 :=
  ⟨rfl, rfl, by decide⟩

/-- C7 amended: periodicUpdateExecutor runs HandleOrderNumbers to completion
in its own loop iteration and only then waits the 500 ms interval, so cycle
n+1 starts exactly 500 ms after cycle n ends and cycles are strictly
serial — whatever the cycle durations. -/
theorem periodicUpdateExecutor_serial (dur : Nat → Nat) (n : Nat) :
    periodicCycleStart dur (n + 1) = periodicCycleEnd dur n + 500
  ∧ periodicCycleEnd dur n < periodicCycleStart dur (n + 1) := by
  refine ⟨rfl, ?_⟩
  show periodicCycleEnd dur n < periodicCycleStart dur n + dur n + 500
  simp only [periodicCycleEnd]
  omega

/-! ## Worker pool: C6 -/

/-- C6 failing input: the worker goroutine of prepareAndUpdateOrderStatus
performs a single receive and returns — there is no loop — so a cycle with
two pending orders and one worker processes only the first order, and in
general a pool of n workers consumes exactly the first n pending orders of
a cycle, not all of them. -/
theorem prepareAndUpdateOrderStatus_no_loop :
    runWorkerPool 1 ["4561261212345467", "79927398713"] = ["4561261212345467"]
  ∧ (runWorkerPool 1 ["4561261212345467", "79927398713"]).contains "79927398713" = false
  ∧ ∀ (n : Nat) (pending : List String), runWorkerPool n pending = pending.take n := by
  refine ⟨rfl, by decide, ?_⟩
  intro n
  induction n with
  | zero => intro pending; rfl
  | succ m ih =>
    intro pending
    cases pending with
    | nil => rfl
    | cons o rest => simp [runWorkerPool, workerReceive, ih]

/-! ## Lemmas about the serial pipeline -/

/-- A terminal order never satisfies the scanner's predicate. -/
lemma notCalculated_of_terminal (db : DBState) (o : String)
    (ht : terminalOrder db o = true) : notCalculated db o = false := by
  unfold terminalOrder at ht
  unfold notCalculated
  cases h : db.orders o with
  | none => rfl
  | some r =>
    rw [h] at ht
    simp only [Bool.or_eq_true, beq_iff_eq] at ht
    rcases ht with h1 | h1 <;> simp [h1]

/-- execUpdateBalance never touches the orders table. -/
lemma execUpdateBalance_orders (db : DBState) (a : ℚ) (on1 : String) :
    (execUpdateBalance db a on1).orders = db.orders := by
  unfold execUpdateBalance
  split <;> rfl

/-- execUpdateOrder touches no order row other than its own. -/
lemma execUpdateOrder_orders_other (db : DBState) (info : APIOrderInfoResponse)
    (on1 o : String) (hne : o ≠ on1) :
    (execUpdateOrder db info on1).orders o = db.orders o := by
  simp [execUpdateOrder, hne]

/-- The committed write set changes the order row exactly by overwriting
status and accrual with the verdict's values. -/
lemma applyVerdictTx_orders (db : DBState) (info : APIOrderInfoResponse) (o : String) :
    (applyVerdictTx db info o).orders o
      = (db.orders o).map (fun r => { r with status := info.status, accrual := some info.accrual }) := by
  unfold applyVerdictTx
  split
  · rw [execUpdateBalance_orders]; simp [execUpdateOrder]
  · simp [execUpdateOrder]

/-- Without a positive accrual the committed write set leaves the balances
table untouched. -/
lemma applyVerdictTx_balances_unchanged (db : DBState) (info : APIOrderInfoResponse)
    (o : String) (h : ¬ 0 < info.accrual) :
    (applyVerdictTx db info o).balances = db.balances := by
  unfold applyVerdictTx
  rw [if_neg h]
  rfl

/-- updateOrderStatus touches no order row other than the one it was called
for. -/
lemma updateOrderStatus_orders_other (fail : TxFail) (resp : HttpOutcome) (db : DBState)
    (on1 o : String) (hne : o ≠ on1) :
    (updateOrderStatus fail resp db on1).1.orders o = db.orders o := by
  cases hres : (updateOrderStatus fail resp db on1).2 with
  | some e =>
    rw [(updateOrderStatus_cases fail resp db on1).1 (by rw [hres]; exact fun h => Option.noConfusion h)]
  | none =>
    obtain ⟨info, _, heq⟩ := (updateOrderStatus_cases fail resp db on1).2 hres
    rw [heq]
    unfold applyVerdictTx
    split
    · rw [execUpdateBalance_orders]; exact execUpdateOrder_orders_other db info on1 o hne
    · exact execUpdateOrder_orders_other db info on1 o hne

/-- A pipeline event never changes the row of an order that is already
terminal: an event for that very order is skipped by the scanner, and an
event for any other order writes only that other order's row. -/
lemma pipelineStep_orders_terminal (db : DBState) (e : PipelineEvent) (o : String)
    (ht : terminalOrder db o = true) :
    (pipelineStep db e).orders o = db.orders o := by
  unfold pipelineStep
  by_cases he : e.orderNum = o
  · rw [he, notCalculated_of_terminal db o ht]
    simp
  · split
    · exact updateOrderStatus_orders_other _ _ _ _ _ (fun hh => he hh.symm)
    · rfl

/-- Terminality of an order is preserved by every pipeline event. -/
lemma terminalOrder_pipelineStep (db : DBState) (e : PipelineEvent) (o : String)
    (ht : terminalOrder db o = true) :
    terminalOrder (pipelineStep db e) o = true := by
  have h := pipelineStep_orders_terminal db e o ht
  unfold terminalOrder at ht ⊢
  rw [h]
  exact ht

/-! ## Monotonic status: C3 -/

/-- A PROCESSED order for user u1 with its accrual 500 already credited. -/
def dbC3 : DBState :=
  ⟨fun k => if k = "79927398713" then some ⟨"u1", "PROCESSED", some 500⟩ else none,
   fun u => if u = "u1" then some 500 else none, []⟩

/-- A later, stale verdict for the same order with status PROCESSING. -/
def respC3 : HttpOutcome :=
  HttpOutcome.okBody (some ⟨"79927398713", "PROCESSING", 0⟩)

/-- Counterexample to C3 as stated: the applier has no forward-only guard —
fed a PROCESSING verdict for an order whose row is already PROCESSED, it
commits and moves the status backwards (rank 2 to rank 1), revisiting a
terminal state. -/
theorem updateOrderStatus_backward_status_cex :
    terminalOrder dbC3 "79927398713" = true
  ∧ (updateOrderStatus noFail respC3 dbC3 "79927398713").2 = none
  ∧ ((updateOrderStatus noFail respC3 dbC3 "79927398713").1.orders "79927398713").map OrderRow.status
      = some "PROCESSING"
  ∧ statusRank "PROCESSING" < statusRank "PROCESSED" :=
  ⟨rfl, rfl, rfl, by decide⟩

/-- C3 amended: the applier itself writes the delivered verdict's status
unconditionally, but the pipeline as a whole never revisits a terminal
order: the scanner excludes PROCESSED and INVALID rows from every scan, so
across any serial pipeline execution the row of an order that is terminal is
never changed again.  Monotonicity among the non-terminal statuses is not
enforced — it holds only if the external service's verdict sequence is
non-decreasing. -/
theorem pipeline_terminal_never_revisited (events : List PipelineEvent) (db : DBState)
    (o : String) (ht : terminalOrder db o = true) :
    (pipelineRun db events).orders o = db.orders o := by
  induction events generalizing db with
  | nil => rfl
  | cons e es ih =>
    calc (pipelineRun (pipelineStep db e) es).orders o
        = (pipelineStep db e).orders o := ih _ (terminalOrder_pipelineStep db e o ht)
      _ = db.orders o := pipelineStep_orders_terminal db e o ht

/-- Witness for C3 amended: a full pipeline pass over a stale PROCESSING
verdict for the already-PROCESSED order leaves its row untouched. -/
theorem pipeline_terminal_never_revisited_witness :
    (pipelineRun dbC3 [⟨"79927398713", respC3, noFail⟩]).orders "79927398713"
      = dbC3.orders "79927398713" :=
  pipeline_terminal_never_revisited [⟨"79927398713", respC3, noFail⟩] dbC3 "79927398713" rfl

/-! ## At-most-once credit: C1 -/

/-- A PROCESSED order for user u1 whose accrual 500 was already credited. -/
def dbC1 : DBState :=
  ⟨fun k => if k = "79927398713" then some ⟨"u1", "PROCESSED", some 500⟩ else none,
   fun u => if u = "u1" then some 500 else none, []⟩

/-- A re-delivered PROCESSED verdict for the already-terminal order. -/
def respC1 : HttpOutcome :=
  HttpOutcome.okBody (some ⟨"79927398713", "PROCESSED", 500⟩)

/-- Counterexample to C1 as stated: updateOrderStatus has no terminal-state
guard, so applying a re-delivered PROCESSED verdict to an order that is
already PROCESSED is not a no-op — it commits and credits the owner's
balance a second time. -/
theorem updateOrderStatus_terminal_not_noop_cex :
    terminalOrder dbC1 "79927398713" = true
  ∧ (updateOrderStatus noFail respC1 dbC1 "79927398713").2 = none
  ∧ dbC1.balances "u1" = some 500
  ∧ (updateOrderStatus noFail respC1 dbC1 "79927398713").1.balances "u1" = some (500 + 500)
  ∧ (500 : ℚ) < 500 + 500 := by
  exact ⟨rfl, rfl, rfl, rfl, by norm_num⟩

/-- An event whose committed verdict changes any balance makes its own order
terminal, provided the verdict respects the accrual interface (positive
accrual only with status PROCESSED). -/
lemma pipelineStep_balance_change_terminal (db : DBState) (e : PipelineEvent) (u : String)
    (hwfe : ∀ info, getOrderInfo e.resp e.orderNum = Except.ok info →
      0 < info.accrual → info.status = "PROCESSED")
    (hch : (pipelineStep db e).balances u ≠ db.balances u) :
    terminalOrder (pipelineStep db e) e.orderNum = true := by
  unfold pipelineStep at hch ⊢
  cases hnc : notCalculated db e.orderNum with
  | false => rw [hnc] at hch; simp at hch
  | true =>
    rw [hnc] at hch
    rw [if_pos rfl] at hch ⊢
    cases hres : (updateOrderStatus e.fail e.resp db e.orderNum).2 with
    | some err =>
      rw [(updateOrderStatus_cases e.fail e.resp db e.orderNum).1
        (by rw [hres]; exact fun h => Option.noConfusion h)] at hch
      exact absurd rfl hch
    | none =>
      obtain ⟨info, hinfo, heq⟩ := (updateOrderStatus_cases e.fail e.resp db e.orderNum).2 hres
      rw [heq] at hch ⊢
      by_cases hacc : 0 < info.accrual
      · have hstat := hwfe info hinfo hacc
        unfold notCalculated at hnc
        cases hrow : db.orders e.orderNum with
        | none => rw [hrow] at hnc; cases hnc
        | some r =>
          unfold terminalOrder
          rw [applyVerdictTx_orders, hrow]
          simp [hstat]
      · rw [applyVerdictTx_balances_unchanged db info _ hacc] at hch
        exact absurd rfl hch

/-- No event of a serial pipeline execution can credit a balance on behalf
of an order that is already terminal: the scanner never emits it again. -/
lemma creditCount_zero_of_terminal (o u : String) (db : DBState) (events : List PipelineEvent)
    (ht : terminalOrder db o = true) :
    creditCount o u db events = 0 := by
  induction events generalizing db with
  | nil => rfl
  | cons e es ih =>
    show (if e.orderNum = o ∧ (pipelineStep db e).balances u ≠ db.balances u then 1 else 0)
        + creditCount o u (pipelineStep db e) es = 0
    rw [ih _ (terminalOrder_pipelineStep db e o ht)]
    by_cases he : e.orderNum = o
    · have hstep : pipelineStep db e = db := by
        unfold pipelineStep
        rw [he, notCalculated_of_terminal db o ht]
        simp
      rw [hstep]
      simp
    · simp [he]

/-- C1 amended: the applier itself has no terminal-state guard (re-applying
a verdict to a terminal order re-credits — see the counterexample), but
across any serial pipeline execution whose verdicts respect the accrual
interface (positive accrual only with status PROCESSED), any user's balance
is credited on behalf of a given order at most once: the crediting event
makes the order PROCESSED in the same transaction, and the scanner excludes
terminal orders from every later scan. -/
theorem pipeline_credits_at_most_once (events : List PipelineEvent) (o u : String)
    (db : DBState) (hwf : wfEvents events) :
    creditCount o u db events ≤ 1 := by
  induction events generalizing db with
  | nil => exact Nat.zero_le 1
  | cons e es ih =>
    have hwfe : ∀ info, getOrderInfo e.resp e.orderNum = Except.ok info →
        0 < info.accrual → info.status = "PROCESSED" :=
      fun info h1 h2 => hwf e (List.mem_cons_self e es) info h1 h2
    have hwfes : wfEvents es := fun x hx info h1 h2 =>
      hwf x (List.mem_cons_of_mem e hx) info h1 h2
    show (if e.orderNum = o ∧ (pipelineStep db e).balances u ≠ db.balances u then 1 else 0)
        + creditCount o u (pipelineStep db e) es ≤ 1
    by_cases hcond : e.orderNum = o ∧ (pipelineStep db e).balances u ≠ db.balances u
    · rw [if_pos hcond]
      have hterm : terminalOrder (pipelineStep db e) e.orderNum = true :=
        pipelineStep_balance_change_terminal db e u hwfe hcond.2
      rw [hcond.1] at hterm
      rw [creditCount_zero_of_terminal o u _ es hterm]
    · rw [if_neg hcond, Nat.zero_add]
      exact ih _ hwfes

/-- Witness for C1 amended, Scenario D of the spec: two consecutive cycles
both deliver a PROCESSED verdict with accrual 100 for the same NEW order;
the balance is credited at most once. -/
theorem pipeline_credits_at_most_once_witness :
    creditCount "79927398713" "u1"
      ⟨fun k => if k = "79927398713" then some ⟨"u1", "NEW", none⟩ else none,
       fun u => if u = "u1" then some 0 else none, []⟩
      [⟨"79927398713", HttpOutcome.okBody (some ⟨"79927398713", "PROCESSED", 100⟩), noFail⟩,
       ⟨"79927398713", HttpOutcome.okBody (some ⟨"79927398713", "PROCESSED", 100⟩), noFail⟩] ≤ 1 := by
  refine pipeline_credits_at_most_once _ "79927398713" "u1" _ ?_
  intro e he info hinfo hacc
  rcases List.mem_cons.mp he with rfl | he2
  · cases hinfo; rfl
  · rcases List.mem_cons.mp he2 with rfl | he3
    · cases hinfo; rfl
    · cases he3

/-! ## Fan-in: C8 -/

/-- Replacing the i-th element of a list changes a mapped sum by exactly the
difference between the images of the new and the old element. -/
lemma sumMap_set {α : Type} (f : α → Nat) (l : List α) :
    ∀ (i : Nat) (a b : α), l.get? i = some b →
      ((l.set i a).map f).sum + f b = (l.map f).sum + f a := by
  induction l with
  | nil => intro i a b h; cases h
  | cons c cs ih =>
    intro i a b h
    cases i with
    | zero =>
      rw [Option.some_inj.mp h.symm]
      simp [List.set]
      omega
    | succ j =>
      have h2 := ih j a b h
      simp only [List.set, List.map_cons, List.sum_cons]
      omega

/-- The safety invariant of the mergeChannels system: a closed out channel
means every forwarder has finished, and while the context is live a
forwarder finishes only having drained its source completely. -/
def MergeInv {T : Type} (s : MergeState T) : Prop :=
  (s.outClosed = true → ∀ p ∈ s.srcs, p.2 = true)
  ∧ (s.cancelled = false → ∀ p ∈ s.srcs, p.2 = true → p.1 = [])

/-- The initial mergeChannels state satisfies the invariant. -/
lemma mergeInv_init {T : Type} (ls : List (List T)) : MergeInv (mergeInit ls) := by
  constructor
  · intro h; cases h
  · intro _ p hp hpt
    simp only [mergeInit, List.mem_map] at hp
    obtain ⟨l, _, rfl⟩ := hp
    cases hpt

/-- Every mergeChannels step preserves the invariant. -/
lemma mergeInv_step {T : Type} {s s2 : MergeState T}
    (hinv : MergeInv s) (hstep : MergeStep s s2) : MergeInv s2 := by
  cases hstep with
  | forward i x rest hc hi =>
    constructor
    · intro ho
      have hdone := hinv.1 ho (x :: rest, false) (List.get?_mem hi)
      simp at hdone
    · intro hcanc p hp hpt
      rcases List.mem_or_eq_of_mem_set hp with hmem | rfl
      · exact hinv.2 hcanc p hmem hpt
      · simp at hpt
  | finish i hi =>
    constructor
    · intro ho p hp
      rcases List.mem_or_eq_of_mem_set hp with hmem | rfl
      · exact hinv.1 ho p hmem
      · rfl
    · intro hcanc p hp hpt
      rcases List.mem_or_eq_of_mem_set hp with hmem | rfl
      · exact hinv.2 hcanc p hmem hpt
      · rfl
  | cancelQuit i l hc hi =>
    constructor
    · intro ho
      have hdone := hinv.1 ho (l, false) (List.get?_mem hi)
      simp at hdone
    · intro hcanc
      rw [show ({ s with srcs := s.srcs.set i (l, true) } : MergeState T).cancelled
          = s.cancelled from rfl, hc] at hcanc
      cases hcanc
  | cancel hc =>
    refine ⟨fun ho => hinv.1 ho, fun hcanc => ?_⟩
    simp at hcanc
  | closeOut hall ho =>
    exact ⟨fun _ => hall, fun hcanc => hinv.2 hcanc⟩

/-- Every mergeChannels step strictly decreases the termination measure, so
no execution of the fan-in runs forever: every forwarder terminates once its
source closes or the context cancels. -/
lemma mergeMeasure_step {T : Type} {s s2 : MergeState T} (hstep : MergeStep s s2) :
    mergeMeasure s2 < mergeMeasure s := by
  cases hstep with
  | forward i x rest hc hi =>
    have h := sumMap_set (fun p => p.1.length + (if p.2 then 0 else 1)) s.srcs i
      (rest, false) (x :: rest, false) hi
    simp only [List.length_cons, Bool.false_eq_true, if_false] at h
    simp only [mergeMeasure]
    omega
  | finish i hi =>
    have h := sumMap_set (fun p => p.1.length + (if p.2 then 0 else 1)) s.srcs i
      (([] : List T), true) (([] : List T), false) hi
    simp only [List.length_nil, Bool.false_eq_true, if_false, if_true] at h
    simp only [mergeMeasure]
    omega
  | cancelQuit i l hc hi =>
    have h := sumMap_set (fun p => p.1.length + (if p.2 then 0 else 1)) s.srcs i
      (l, true) (l, false) hi
    simp only [Bool.false_eq_true, if_false, if_true] at h
    simp only [mergeMeasure, hc]
    omega
  | cancel hc =>
    simp only [mergeMeasure, hc]
    simp
  | closeOut hall ho =>
    simp only [mergeMeasure, ho]
    simp

/-- C8: in every reachable state of the mergeChannels system, the merged
channel is closed only once every forwarder has finished, and absent
cancellation a forwarder finishes only with its source fully drained
(closed); every step strictly decreases the termination measure, so no
fan-in goroutine runs forever; and once the context is cancelled every
still-live forwarder can immediately finish, leaving its undelivered items
behind. -/
theorem mergeChannels_spec (T : Type) (ls : List (List T)) (s : MergeState T)
    (hr : MergeReachable ls s) :
    (s.outClosed = true → ∀ p ∈ s.srcs, p.2 = true)
  ∧ (s.cancelled = false → ∀ p ∈ s.srcs, p.2 = true → p.1 = [])
  ∧ (∀ s2, MergeStep s s2 → mergeMeasure s2 < mergeMeasure s)
  ∧ (s.cancelled = true → ∀ (i : Nat) (l : List T), s.srcs.get? i = some (l, false) →
        MergeStep s { s with srcs := s.srcs.set i (l, true) }) := by
  have hinv : MergeInv s := by
    induction hr with
    | refl => exact mergeInv_init ls
    | tail _ hstep ih => exact mergeInv_step ih hstep
  exact ⟨hinv.1, hinv.2, fun s2 hstep => mergeMeasure_step hstep,
    fun hc i l hi => MergeStep.cancelQuit s i l hc hi⟩

/-- Witness for C8: from the initial state on one already-empty source, the
finishing step of its forwarder decreases the measure. -/
theorem mergeChannels_spec_witness :
    mergeMeasure (MergeState.mk [(([] : List Nat), true)] [] false false)
      < mergeMeasure (mergeInit ([[]] : List (List Nat))) :=
  (mergeChannels_spec Nat [[]] (mergeInit [[]]) Relation.ReflTransGen.refl).2.2.1
    ⟨[(([] : List Nat), true)], [], false, false⟩ (MergeStep.finish _ 0 rfl)

end Gophermart
